import Mathlib

/-!
Verification of the insurance-PDF extraction and unification engine
(`extract_uv_pdf.py`, `extract_assomption_pdf.py`, `unify_extraction.py`).

The Python sources are shallowly embedded: strings are Lean `String`s,
coordinates and currency values are rationals, Python `dict`s that preserve
insertion order become association lists, and the line-driven parsing loops
become folds over explicit state records.  The Python builtins used by the
code (`str.replace`, `str.strip`, `str.split`, `float(...)`, `int(...)`,
`round(...)`, format specifiers) are modelled over their documented grammar
restricted to the ASCII repertoire plus the French accented letters that the
sources mention.
-/

namespace PDFSpec

/-! ## Python string primitives -/

/-- Whitespace characters recognised by Python `str.strip()` / `float()` /
`int()` (ASCII repertoire). -/
def isPyWs (c : Char) : Bool :=
  c = ' ' || c = '\t' || c = '\n' || c = '\r' || c = '\x0b' || c = '\x0c'

/-- Drop leading and trailing whitespace, as Python `str.strip()`. -/
def pyStripL (cs : List Char) : List Char :=
  ((cs.dropWhile isPyWs).reverse.dropWhile isPyWs).reverse

/-- String version of `pyStripL`. -/
def pyStrip (s : String) : String :=
  String.mk (pyStripL s.data)

/-- Remove every occurrence of character `c`, as Python `str.replace(c, "")`. -/
def removeChar (c : Char) (cs : List Char) : List Char :=
  cs.filter (fun x => x ≠ c)

/-- Replace every occurrence of `a` by `b`, as Python `str.replace(a, b)` with
one-character arguments. -/
def replaceChar (a b : Char) (cs : List Char) : List Char :=
  cs.map (fun x => if x = a then b else x)

/-- Decide whether `needle` occurs as a contiguous substring of `hay`,
as the Python `in` operator on strings. -/
def substrB (needle hay : List Char) : Bool :=
  hay.tails.any (fun t => needle.isPrefixOf t)

/-- String version of `substrB`. -/
def strContains (hay needle : String) : Bool :=
  substrB needle.data hay.data

/-- Python `str.startswith` on character lists. -/
def startsWithB (pre cs : List Char) : Bool :=
  pre.isPrefixOf cs

theorem dropWhile_length_le {α : Type} (p : α → Bool) (l : List α) :
    (l.dropWhile p).length ≤ l.length := by
  induction l with
  | nil => simp [List.dropWhile]
  | cons c r ih =>
    simp only [List.dropWhile]
    split
    · exact Nat.le_trans ih (Nat.le_succ _)
    · exact Nat.le_refl _

/-- Single pass of Python `str.split()`: accumulate the current token in
reverse and emit it at each whitespace run. -/
def pySplitCore : List Char → List Char → List (List Char)
  | [], acc => if acc = [] then [] else [acc.reverse]
  | c :: r, acc =>
    if isPyWs c then
      if acc = [] then pySplitCore r [] else acc.reverse :: pySplitCore r []
    else pySplitCore r (c :: acc)

/-- Python `str.split()` with no argument: split on whitespace runs,
discarding empty tokens. -/
def pySplitWs (cs : List Char) : List (List Char) :=
  pySplitCore cs []

/-- Join a list of strings with single-space separators, as
Python `" ".join(...)`. -/
def joinSpace (ss : List String) : String :=
  String.intercalate " " ss

/-- Lowercase map used by the sources: ASCII letters plus the uppercase
accented French letters appearing in the documents. -/
def pyLowerChar (c : Char) : Char :=
  if 'A' ≤ c ∧ c ≤ 'Z' then Char.ofNat (c.toNat + 32)
  else if c = 'É' then 'é' else if c = 'È' then 'è'
  else if c = 'Ê' then 'ê' else if c = 'Ë' then 'ë'
  else if c = 'À' then 'à' else if c = 'Â' then 'â'
  else if c = 'Ä' then 'ä' else if c = 'Ù' then 'ù'
  else if c = 'Û' then 'û' else if c = 'Ü' then 'ü'
  else if c = 'Ô' then 'ô' else if c = 'Ö' then 'ö'
  else if c = 'Î' then 'î' else if c = 'Ï' then 'ï'
  else if c = 'Ç' then 'ç' else c

/-- Python `str.lower()` over the modelled repertoire. -/
def pyLower (cs : List Char) : List Char :=
  cs.map pyLowerChar

/-! ## Python numeric literal grammar

Models the acceptance and the value of CPython `float(...)` and `int(...)`
on strings: optional surrounding whitespace, optional sign, a digit part in
which single underscores may separate digits, an optional fraction and
exponent for floats, and the case-insensitive special words `inf`,
`infinity` and `nan` for floats.  The special words denote non-rational
floats; the value function returns `none` for them (no caller in this
development feeds them to a value-demanding context). -/

/-- Continuation of a digit run after at least one digit has been read:
digits, optionally separated by single underscores. -/
def digitRunAux : Nat → List Char → List Char × List Char
  | 0, cs => ([], cs)
  | Nat.succ n, cs =>
    match cs with
    | [] => ([], [])
    | c :: rest =>
      if c.isDigit then
        let p := digitRunAux n rest
        (c :: p.1, p.2)
      else if c = '_' then
        match rest with
        | d :: rest2 =>
          if d.isDigit then
            let p := digitRunAux n rest2
            (d :: p.1, p.2)
          else ([], c :: rest)
        | [] => ([], [c])
      else ([], c :: rest)

/-- Parse a Python digit part (`digit (["_"] digit)*`).  Returns the digits
read (underscores elided) and the remaining input, or `none` when the input
does not start with a digit. -/
def digitPart (cs : List Char) : Option (List Char × List Char) :=
  match cs with
  | c :: rest =>
    if c.isDigit then
      let p := digitRunAux rest.length rest
      some (c :: p.1, p.2)
    else none
  | [] => none

/-- Numeric value of a list of decimal digits. -/
def digitsToNat (ds : List Char) : Nat :=
  ds.foldl (fun acc c => 10 * acc + (c.toNat - '0'.toNat)) 0

/-- Parse the mantissa of a Python float literal: `digits [. [digits]]` or
`. digits`.  Returns (integer digits, fraction digits, rest). -/
def floatMantissa (cs : List Char) : Option (List Char × List Char × List Char) :=
  match digitPart cs with
  | some (ds, r) =>
    match r with
    | '.' :: r2 =>
      match digitPart r2 with
      | some (fs, r3) => some (ds, fs, r3)
      | none => some (ds, [], r2)
    | _ => some (ds, [], r)
  | none =>
    match cs with
    | '.' :: r2 =>
      match digitPart r2 with
      | some (fs, r3) => some ([], fs, r3)
      | none => none
    | _ => none

/-- Parse the optional exponent of a Python float literal:
`("e"|"E") [sign] digits`.  Returns (exponent value, rest); on an input not
starting with a well-formed exponent it consumes nothing. -/
def floatExponent (cs : List Char) : Int × List Char :=
  match cs with
  | e :: r =>
    if e = 'e' ∨ e = 'E' then
      match r with
      | '+' :: r2 =>
        match digitPart r2 with
        | some (ds, r3) => ((digitsToNat ds : Int), r3)
        | none => (0, cs)
      | '-' :: r2 =>
        match digitPart r2 with
        | some (ds, r3) => (-(digitsToNat ds : Int), r3)
        | none => (0, cs)
      | _ =>
        match digitPart r with
        | some (ds, r3) => ((digitsToNat ds : Int), r3)
        | none => (0, cs)
    else (0, cs)
  | [] => (0, cs)

/-- Strip an optional sign.  Returns (sign as ±1, rest). -/
def stripSign (cs : List Char) : Int × List Char :=
  match cs with
  | '+' :: r => (1, r)
  | '-' :: r => (-1, r)
  | _ => (1, cs)

/-- Acceptance of CPython `float(s)`: whitespace-stripped, optionally signed
mantissa with optional exponent consuming the whole input, or one of the
special words `inf` / `infinity` / `nan` (case-insensitive). -/
def pyFloatAccepts (s : String) : Bool :=
  let cs := pyStripL s.data
  let body := (stripSign cs).2
  let low := pyLower body
  if low = "inf".data ∨ low = "infinity".data ∨ low = "nan".data then true
  else
    match floatMantissa body with
    | some (_, _, r) => (floatExponent r).2 = []
    | none => false

/-- Value of CPython `float(s)` as a rational, `none` when the literal is
rejected or denotes a non-rational special value.  The value
`sign * (ds.fs) * 10^e` is assembled from integers to stay kernel-reducible. -/
def pyFloatVal (s : String) : Option ℚ :=
  let cs := pyStripL s.data
  let sg := stripSign cs
  let low := pyLower sg.2
  if low = "inf".data ∨ low = "infinity".data ∨ low = "nan".data then none
  else
    match floatMantissa sg.2 with
    | some (ds, fs, r) =>
      let e := floatExponent r
      if e.2 = [] then
        let mant : Int := (digitsToNat ds * 10 ^ fs.length + digitsToNat fs : Nat)
        some (((sg.1 * mant * 10 ^ e.1.toNat : Int) : ℚ) /
              ((10 ^ (fs.length + (-e.1).toNat) : Nat) : ℚ))
      else none
    | none => none

/-- Value of CPython `int(s)` on strings: whitespace-stripped, optionally
signed digit part consuming the whole input. -/
def pyIntVal (s : String) : Option Int :=
  let cs := pyStripL s.data
  let sg := stripSign cs
  match digitPart sg.2 with
  | some (ds, []) => some (sg.1 * (digitsToNat ds : Int))
  | _ => none

/-- Python `str.isdigit()` over the ASCII repertoire: non-empty and all
decimal digits. -/
def pyIsDigit (cs : List Char) : Bool :=
  !cs.isEmpty && cs.all Char.isDigit

/-- Decimal digit characters of a natural number, as Python `str(n)`. -/
def natDigits (n : Nat) : List Char :=
  (Nat.toDigits 10 n)

/-- Python `round(x, 0)` on a rational: round half to even. -/
def pyRound (q : ℚ) : ℚ :=
  let n : Int := ⌊q⌋
  let r : ℚ := q - (n : ℚ)
  if r < 1/2 then (n : ℚ)
  else if 1/2 < r then ((n + 1 : Int) : ℚ)
  else if Even n then (n : ℚ) else ((n + 1 : Int) : ℚ)

/-- Python format specifier `{:0wd}` on an integer: decimal digits zero-padded
on the left to overall width `w`, the sign counting toward the width. -/
def pyFormat0d (w : Nat) (n : Int) : String :=
  let ds := natDigits n.natAbs
  let sign : List Char := if n < 0 then ['-'] else []
  let pad := w - (ds.length + sign.length)
  String.mk (sign ++ List.replicate pad '0' ++ ds)

/-- Separator insertion for `groupThousandsSpace`, on the reversed digit
list: a space after every three digits while more digits remain.  The fuel
argument bounds the recursion depth by the list length. -/
def group3RevAux : Nat → List Char → List Char
  | 0, ds => ds
  | Nat.succ fuel, ds =>
    if ds.length ≤ 3 then ds
    else ds.take 3 ++ ' ' :: group3RevAux fuel (ds.drop 3)

/-- Separator insertion on the reversed digit list. -/
def group3Rev (ds : List Char) : List Char :=
  group3RevAux ds.length ds

/-- Python `"{:,}".format(n)` for a natural number, with the separators then
replaced by spaces: digits grouped in threes from the right. -/
def groupThousandsSpace (n : Nat) : String :=
  String.mk ((group3Rev (natDigits n).reverse).reverse)

/-! ## Positioned words, line reconstruction and column classification

Embedding of `group_words_by_line` and `extract_row_by_columns`, which are
textually identical in `extract_uv_pdf.py` and `extract_assomption_pdf.py`
(only the column-boundary tables differ). -/

/-- One positioned word handed over by the layout provider: its text, the X
coordinate of its left edge and its top Y coordinate. -/
structure Word where
  text : String
  x0 : ℚ
  top : ℚ
deriving DecidableEq

/-- Stable insertion step for sorting words by `x0`. -/
def insertByX (w : Word) : List Word → List Word
  | [] => [w]
  | v :: r => if w.x0 ≤ v.x0 then w :: v :: r else v :: insertByX w r

/-- Python `sorted(words, key=lambda w: w["x0"])`: stable sort by `x0`. -/
def sortByX (ws : List Word) : List Word :=
  ws.foldr insertByX []

/-- One step of `group_words_by_line`: append the word to the first existing
bucket whose key is within `tol` of `yk`, or open a new bucket keyed `yk`.
The association list keeps Python-`dict` insertion order. -/
def insertWordAux (tol yk : ℚ) (w : Word) :
    List (ℚ × List Word) → List (ℚ × List Word)
  | [] => [(yk, [w])]
  | (k, ws) :: rest =>
    if |k - yk| ≤ tol then (k, ws ++ [w]) :: rest
    else (k, ws) :: insertWordAux tol yk w rest

/-- Embedding of `group_words_by_line(words, tolerance)`: greedy single-pass
clustering of words into line buckets keyed by the rounded top Y. -/
def group_words_by_line (words : List Word) (tol : ℚ) :
    List (ℚ × List Word) :=
  words.foldl (fun lines w => insertWordAux tol (pyRound w.top) w lines) []

/-- Stable insertion step for sorting line buckets by key. -/
def insertByKey (p : ℚ × List Word) :
    List (ℚ × List Word) → List (ℚ × List Word)
  | [] => [p]
  | q :: r => if p.1 ≤ q.1 then p :: q :: r else q :: insertByKey p r

/-- Python `sorted(lines.keys())` traversal: buckets in ascending key order. -/
def sortLines (ls : List (ℚ × List Word)) : List (ℚ × List Word) :=
  ls.foldr insertByKey []

/-- First column of `bounds` whose half-open range `[lo, hi)` contains `x`
(the inner loop of `extract_row_by_columns`, which `break`s on the first
match). -/
def assignWord (bounds : List (String × ℚ × ℚ)) (x : ℚ) : Option String :=
  match bounds with
  | [] => none
  | (col, lo, hi) :: rest =>
    if lo ≤ x ∧ x < hi then some col else assignWord rest x

/-- Append `t` to the bucket of column `col` in the row accumulator. -/
def addToCol (col t : String) :
    List (String × List String) → List (String × List String)
  | [] => []
  | (c, ts) :: rest =>
    if c = col then (c, ts ++ [t]) :: rest else (c, ts) :: addToCol col t rest

/-- Embedding of `extract_row_by_columns(line_words, col_boundaries)`: assign
every word to the first column range containing its X (words matching no
range contribute to none) and join each column's words with spaces. -/
def extract_row_by_columns (bounds : List (String × ℚ × ℚ))
    (line_words : List Word) : List (String × String) :=
  let init := bounds.map (fun b => (b.1, ([] : List String)))
  let filled := line_words.foldl (fun row w =>
    match assignWord bounds w.x0 with
    | some col => addToCol col w.text row
    | none => row) init
  filled.map (fun p => (p.1, joinSpace p.2))

/-- Text of column `col` in an extracted row (`row_text[col]`; the column
tables are fixed, so a missing key cannot occur and defaults to `""`). -/
def rowGet (row : List (String × String)) (col : String) : String :=
  (((row.find? (fun p => p.1 = col)).map Prod.snd).getD "")

/-- Consume a literal string, as a regex literal: the rest of the input on
success. -/
def litB (lit : String) (cs : List Char) : Option (List Char) :=
  if startsWithB lit.data cs then some (cs.drop lit.data.length) else none

/-- Consume exactly `n` decimal digits, as regex `\d{n}`. -/
def takeDigitsN (n : Nat) (cs : List Char) : Option (List Char × List Char) :=
  let ds := cs.take n
  if ds.length = n ∧ ds.all Char.isDigit then some (ds, cs.drop n) else none

/-- Test for regex `\d{4}-\d{2}-\d{2}` anchored at the head of the input. -/
def startsDate (cs : List Char) : Bool :=
  match cs with
  | a :: b :: c :: d :: '-' :: e :: f :: '-' :: g :: h :: _ =>
    a.isDigit && b.isDigit && c.isDigit && d.isDigit &&
    e.isDigit && f.isDigit && g.isDigit && h.isDigit
  | _ => false

/-- Python `re.search(r"\d{4}-\d{2}-\d{2}", ...)` viewed as a Boolean. -/
def hasDatePattern (cs : List Char) : Bool :=
  cs.tails.any startsDate

end PDFSpec

namespace PDFSpec.UV

/-! ## Embedding of `extract_uv_pdf.py` -/

/-- Insured person of the UV variant (`InsuredInfo` dataclass). -/
structure InsuredInfo where
  last_name : String
  first_name : String
  sex : String
  birth_date : String
  age : Int
  smoker : Bool
deriving DecidableEq

/-- Coverage line of the UV variant (`ProtectionInfo` dataclass). -/
structure ProtectionInfo where
  protection_name : String
  insurance_amount : String
  annual_premium : String
  monthly_premium : String
  details : String
deriving DecidableEq

/-- Column geometry of UV documents (`COLUMN_BOUNDARIES`). -/
def COLUMN_BOUNDARIES : List (String × ℚ × ℚ) :=
  [("description", 0, 280), ("insurance_amount", 280, 400),
   ("annual_premium", 400, 510), ("monthly_premium", 510, 600)]

/-- Embedding of UV `is_numeric_amount`: strip spaces, `$` and map commas to
periods, then ask whether Python `float` accepts the result. -/
def is_numeric_amount (value : String) : Bool :=
  if value = "" then false
  else
    let cleaned :=
      pyStrip (String.mk (replaceChar ',' '.' (removeChar '$' (removeChar ' ' value.data))))
    if cleaned = "" then false
    else pyFloatAccepts cleaned

/-- Embedding of UV `normalize_amount`. -/
def normalize_amount (amount : String) : String :=
  if amount = "" then ""
  else
    let cleaned := pyStripL (removeChar ' ' amount.data)
    if cleaned = "Voirladescription".data then "Voir la description"
    else if cleaned.getLast? = some '$' then
      let num_part := cleaned.dropLast
      if pyIsDigit num_part then
        groupThousandsSpace (digitsToNat num_part) ++ " $"
      else pyStrip amount
    else pyStrip amount

/-- Character class `[A-ZÉÈÊËÀÂÄÙÛÜÔÖÎÏÇ\s-]` of the insured-line regex. -/
def nameChar (c : Char) : Bool :=
  ('A' ≤ c ∧ c ≤ 'Z') ||
  c ∈ ['É','È','Ê','Ë','À','Â','Ä','Ù','Û','Ü','Ô','Ö','Î','Ï','Ç'] ||
  isPyWs c || c = '-'

/-- Embedding of UV `parse_insured_line`: the anchored regex
`^([class]+),\s*(Homme|Femme),\s*(\d{4}-\d{2}-\d{2}),\s*(\d+)\s*an\(s\),\s*(non-fumeur|fumeur)`
over the stripped line, followed by the last-token-is-family-name split. -/
def parse_insured_line (text : String) : Option InsuredInfo :=
  let cs := pyStripL text.data
  let name := cs.takeWhile nameChar
  let rest := cs.dropWhile nameChar
  if name = [] then none else
  match rest with
  | ',' :: r1 =>
    let r2 := r1.dropWhile isPyWs
    let sexParse : Option (String × List Char) :=
      match litB "Homme" r2 with
      | some r => some ("Homme", r)
      | none =>
        match litB "Femme" r2 with
        | some r => some ("Femme", r)
        | none => none
    match sexParse with
    | some (sex, r3) =>
      (match r3 with
      | ',' :: r4 =>
        let r5 := r4.dropWhile isPyWs
        (match takeDigitsN 4 r5 with
        | some (y, r6) =>
          (match r6 with
          | '-' :: r7 =>
            (match takeDigitsN 2 r7 with
            | some (mo, r8) =>
              (match r8 with
              | '-' :: r9 =>
                (match takeDigitsN 2 r9 with
                | some (d, r10) =>
                  (match r10 with
                  | ',' :: r11 =>
                    let r12 := r11.dropWhile isPyWs
                    let ageDigits := r12.takeWhile Char.isDigit
                    if ageDigits = [] then none else
                    let r13 := (r12.dropWhile Char.isDigit).dropWhile isPyWs
                    (match litB "an(s)," r13 with
                    | some r14 =>
                      let r15 := r14.dropWhile isPyWs
                      let smoker? : Option String :=
                        match litB "non-fumeur" r15 with
                        | some _ => some "non-fumeur"
                        | none =>
                          match litB "fumeur" r15 with
                          | some _ => some "fumeur"
                          | none => none
                      (match smoker? with
                      | some sm =>
                        let full_name := pyStrip (String.mk name)
                        let parts := pySplitWs full_name.data
                        let ln :=
                          if 2 ≤ parts.length then String.mk (parts.getLastD [])
                          else full_name
                        let fn :=
                          if 2 ≤ parts.length then
                            joinSpace (parts.dropLast.map String.mk)
                          else ""
                        some ⟨ln, fn, sex,
                              String.mk (y ++ '-' :: mo ++ '-' :: d),
                              (digitsToNat ageDigits : Int), sm = "fumeur"⟩
                      | none => none)
                    | none => none)
                  | _ => none)
                | none => none)
              | _ => none)
            | none => none)
          | _ => none)
        | none => none)
      | _ => none)
    | none => none
  | _ => none

/-- Running state of the UV line loop in `extract_summary_with_pdfplumber`.
The Python locals `protections` and `current_protection` alias the most
recently appended item, so the state keeps the already-frozen items in
`committed` and the aliased last item in `current`; the Python list is
`committed ++ current.toList`. -/
structure State where
  insured : Option InsuredInfo
  committed : List ProtectionInfo
  current : Option ProtectionInfo
  total_annual_premium : String
  total_monthly_premium : String
  complete : Bool
deriving DecidableEq

/-- State at the top of the UV line loop. -/
def initState : State := ⟨none, [], none, "", "", false⟩

/-- The Python `protections` list of a state. -/
def State.protections (s : State) : List ProtectionInfo :=
  s.committed ++ s.current.toList

/-- One iteration of the UV line loop. -/
def step (s : State) (ws : List Word) : State :=
  let line_words := sortByX ws
  let full_line := joinSpace (line_words.map Word.text)
  let row := extract_row_by_columns COLUMN_BOUNDARIES line_words
  if s.insured = none ∧ hasDatePattern full_line.data then
    { s with insured := parse_insured_line full_line }
  else if strContains (rowGet row "description") "Prime totale" then
    { s with total_annual_premium := pyStrip (rowGet row "annual_premium"),
             total_monthly_premium := pyStrip (rowGet row "monthly_premium"),
             complete := true }
  else
    let desc := pyStrip (rowGet row "description")
    if desc = "" then s
    else if desc = "Assurance individuelle" then s
    else if strContains desc "SOMMAIRE" then s
    else if startsWithB "(".data desc.data ∧ s.current ≠ none then
      { s with current := s.current.map (fun p => { p with details := desc }) }
    else
      let amount_raw := rowGet row "insurance_amount"
      let annual_raw := rowGet row "annual_premium"
      let monthly_raw := rowGet row "monthly_premium"
      let amount := normalize_amount amount_raw
      let annual := pyStrip annual_raw
      let monthly := pyStrip monthly_raw
      if is_numeric_amount amount ∨ is_numeric_amount annual then
        { s with committed := s.committed ++ s.current.toList,
                 current := some ⟨desc, amount, annual, monthly, ""⟩ }
      else if s.current ≠ none ∧ desc ≠ "" ∧ ¬ startsWithB "(".data desc.data then
        if amount_raw = "" ∧ annual_raw = "" then
          { s with current := s.current.map (fun p =>
              { p with protection_name := p.protection_name ++ " " ++ desc }) }
        else s
      else s

/-- The UV line loop: lines are visited in order, and once
`extraction_complete` is set the `break` discards all remaining lines. -/
def processLines : List (List Word) → State → State
  | [], s => s
  | l :: rest, s => if s.complete then s else processLines rest (step s l)

end PDFSpec.UV

namespace PDFSpec.Assomption

/-! ## Embedding of `extract_assomption_pdf.py` (guarantee-table loop) -/

/-- Guarantee line of the Assomption variant (`GuaranteeInfo` dataclass). -/
structure GuaranteeInfo where
  protection_name : String
  capital_assure : String
  duree_paiement : String
  prime_annuelle : String
deriving DecidableEq

/-- Column geometry of Assomption documents (`COLUMN_BOUNDARIES`). -/
def COLUMN_BOUNDARIES : List (String × ℚ × ℚ) :=
  [("description", 0, 350), ("capital_assure", 350, 420),
   ("duree_paiement", 420, 520), ("prime_annuelle", 520, 600)]

/-- Embedding of Assomption `is_numeric_amount`: the value is non-empty,
contains `$` and contains at least one digit. -/
def is_numeric_amount (value : String) : Bool :=
  if value = "" then false
  else strContains value "$" && value.data.any Char.isDigit

/-- Character class `[\d\s,]` of the totals regex. -/
def totClass (c : Char) : Bool :=
  c.isDigit || isPyWs c || c = ','

/-- Match regex `\s*\$` at the head of the input; returns the consumed
characters. -/
def wsDollar (cs : List Char) : Option (List Char) :=
  match cs.dropWhile isPyWs with
  | '$' :: _ => some (cs.takeWhile isPyWs ++ ['$'])
  | _ => none

/-- Match regex `\d?\s*\$` at the head of the input, digit-first as the
backtracking engine does; returns the consumed characters. -/
def tailDollar (cs : List Char) : Option (List Char) :=
  match cs with
  | c :: r =>
    if c.isDigit then
      match wsDollar r with
      | some t => some (c :: t)
      | none => wsDollar cs
    else wsDollar cs
  | [] => none

/-- Backtracking loop of the greedy `[\d\s,]*` in the totals regex: try the
longest class run first, giving characters back one at a time. -/
def totGo (c : Char) (after : List Char) : Nat → Option (List Char)
  | 0 =>
    match tailDollar after with
    | some t => some (c :: t)
    | none => none
  | Nat.succ k2 =>
    match tailDollar (after.drop (k2 + 1)) with
    | some t => some (c :: (after.take (k2 + 1) ++ t))
    | none => totGo c after k2

/-- Match the totals regex at a position whose first character is the digit
`c`. -/
def totTryFrom (c : Char) (after : List Char) : Option (List Char) :=
  totGo c after (after.takeWhile totClass).length

/-- Python `re.search(r"(\d[\d\s,]*\d?\s*\$)", ...)`: leftmost match. -/
def reSearchTotal : List Char → Option String
  | [] => none
  | c :: r =>
    match (if c.isDigit then totTryFrom c r else none) with
    | some m => some (String.mk m)
    | none => reSearchTotal r

/-- Word characters for regex `\w` (ASCII plus the modelled French
letters). -/
def pyWordChar (c : Char) : Bool :=
  c.isAlphanum || c = '_' ||
  c ∈ ['é','è','ê','ë','à','â','ä','ù','û','ü','ô','ö','î','ï','ç',
       'É','È','Ê','Ë','À','Â','Ä','Ù','Û','Ü','Ô','Ö','Î','Ï','Ç']

/-- Python `re.search(r"Intervalle de paiement\s+(\w+)", ...)`: the first
word following the anchor phrase and at least one whitespace character. -/
def reSearchIntervalle : List Char → Option String
  | [] => none
  | c :: r =>
    if startsWithB "Intervalle de paiement".data (c :: r) then
      let r1 := (c :: r).drop "Intervalle de paiement".data.length
      if r1.takeWhile isPyWs = [] then reSearchIntervalle r
      else
        let r2 := r1.dropWhile isPyWs
        let w := r2.takeWhile pyWordChar
        if w = [] then reSearchIntervalle r else some (String.mk w)
    else reSearchIntervalle r

/-- Header/footer anchor substrings skipped inside the table. -/
def HEADER_ANCHORS : List String :=
  ["Assurance demandee", "Capital assure", "des primes", "initiale",
   "Assurance demandée", "Capital assuré"]

/-- Running state of the Assomption guarantee-table loop. -/
structure State where
  in_table : Bool
  guarantees : List GuaranteeInfo
  total_annual_premium : String
  total_monthly_premium : String
  payment_interval : String
deriving DecidableEq

/-- State at the top of the Assomption line loop. -/
def initState : State := ⟨false, [], "", "", ""⟩

/-- One iteration of the Assomption line loop. -/
def step (s : State) (ws : List Word) : State :=
  let line_words := sortByX ws
  let full_line := joinSpace (line_words.map Word.text)
  if startsWithB "Police ".data (pyStrip full_line).data ∧ ¬ s.in_table then
    { s with in_table := true }
  else if strContains full_line "Prime annuelle totale" then
    match reSearchTotal full_line.data with
    | some m => { s with total_annual_premium := pyStrip m }
    | none => s
  else if startsWithB "Prime totale".data (pyStrip full_line).data then
    match reSearchTotal full_line.data with
    | some m => { s with total_monthly_premium := pyStrip m }
    | none => s
  else if strContains full_line "Intervalle de paiement" then
    match reSearchIntervalle full_line.data with
    | some m => { s with payment_interval := pyStrip m }
    | none => s
  else if ¬ s.in_table then s
  else if HEADER_ANCHORS.any (fun a => strContains full_line a) then s
  else if startsWithB "sur ".data (pyStrip full_line).data then s
  else if pyStrip full_line = "Sommaire" then { s with in_table := false }
  else
    let row := extract_row_by_columns COLUMN_BOUNDARIES line_words
    let desc := pyStrip (rowGet row "description")
    let capital := pyStrip (rowGet row "capital_assure")
    let duree := pyStrip (rowGet row "duree_paiement")
    let prime := pyStrip (rowGet row "prime_annuelle")
    if desc ≠ "" ∧ (is_numeric_amount capital ∨ is_numeric_amount prime) then
      { s with guarantees := s.guarantees ++ [⟨desc, capital, duree, prime⟩] }
    else s

/-- The Assomption line loop (no `break`: every line is visited). -/
def processLines (lines : List (List Word)) (s : State) : State :=
  lines.foldl step s

end PDFSpec.Assomption

namespace PDFSpec.Unify

/-! ## Embedding of `unify_extraction.py` -/

/-- French month-name table (`FRENCH_MONTHS`). -/
def FRENCH_MONTHS : List (String × Nat) :=
  [("janvier", 1), ("février", 2), ("fevrier", 2), ("mars", 3), ("avril", 4),
   ("mai", 5), ("juin", 6), ("juillet", 7), ("août", 8), ("aout", 8),
   ("septembre", 9), ("octobre", 10), ("novembre", 11), ("décembre", 12),
   ("decembre", 12)]

/-- French weekday names stripped by the date parser (`FRENCH_DAYS`). -/
def FRENCH_DAYS : List String :=
  ["lundi", "mardi", "mercredi", "jeudi", "vendredi", "samedi", "dimanche"]

/-- Python `FRENCH_MONTHS.get(month_name)` (months are ≥ 1, so Python's
truthiness test on the result is exactly `isSome`). -/
def monthLookup (m : String) : Option Nat :=
  (FRENCH_MONTHS.find? (fun p => p.1 = m)).map Prod.snd

/-- Cleaning pipeline of `parse_french_date` up to tokenization: lowercase,
strip, drop a leading weekday name, remove commas, normalize spaces and
split. -/
def dateTokens (date_str : String) : List (List Char) :=
  let c1 := pyStripL (pyLower date_str.data)
  let c2 :=
    match FRENCH_DAYS.find? (fun d => startsWithB d.data c1) with
    | some d => pyStripL (c1.drop d.data.length)
    | none => c1
  let c3 := pyStripL (removeChar ',' c2)
  let c4 := (joinSpace ((pySplitWs c3).map String.mk)).data
  pySplitWs c4

/-- Embedding of `parse_french_date`: `"lundi 17 novembre 2025"` to
`some "2025-11-17"`; `none` when the first three tokens do not form
day-number, known month name, year. -/
def parse_french_date (date_str : String) : Option String :=
  if date_str = "" then none
  else
    match dateTokens date_str with
    | d :: m :: y :: _ =>
      match pyIntVal (String.mk d), monthLookup (String.mk (pyLower m)),
            pyIntVal (String.mk y) with
      | some day, some month, some year =>
        some (pyFormat0d 4 year ++ "-" ++ pyFormat0d 2 (month : Int) ++ "-" ++
              pyFormat0d 2 day)
      | _, _, _ => none
    | _ => none

/-- The document-date normalization performed by `convert_uv_extraction` and
`convert_assomption_extraction`:
`parse_french_date(extraction.document_date) or extraction.document_date`
(Python `or` falls back on a falsy — `None` or empty — result). -/
def convert_document_date (d : String) : String :=
  match parse_french_date d with
  | some s => if s = "" then d else s
  | none => d

/-- Embedding of `parse_currency`: remove `$` and spaces, treat a comma as
the decimal separator, and take the float value. -/
def parse_currency (value : String) : Option ℚ :=
  if value = "" then none
  else
    let cleaned := pyStripL (removeChar ' ' (removeChar '$' value.data))
    if cleaned = [] then none
    else
      let cleaned2 := if cleaned.contains ',' then replaceChar ',' '.' cleaned
                      else cleaned
      pyFloatVal (String.mk cleaned2)

/-- Data source tag (`InsuranceSource`). -/
inductive InsuranceSource where
  | UV : InsuranceSource
  | Assomption : InsuranceSource
deriving DecidableEq

/-- The `.value` attribute of the source enum. -/
def InsuranceSource.value : InsuranceSource → String
  | .UV => "UV"
  | .Assomption => "Assomption"

/-- Unified insured person (`UnifiedInsured` dataclass). -/
structure UnifiedInsured where
  insured_number : String
  last_name : String
  first_name : String
  sex : String
  age : Int
  smoker : Bool
  birth_date : Option String
deriving DecidableEq

/-- The `insured_name` property: `f"{first_name} {last_name}".strip()`. -/
def UnifiedInsured.insured_name (p : UnifiedInsured) : String :=
  pyStrip (p.first_name ++ " " ++ p.last_name)

/-- Unified protection (`UnifiedProtection` dataclass). -/
structure UnifiedProtection where
  product_name : String
  coverage_amount : Option ℚ
  policy_premium : Option ℚ
  monthly_premium : Option ℚ
  payment_duration : Option String
  details : Option String
deriving DecidableEq

/-- Unified extraction result (`UnifiedExtraction` dataclass). -/
structure UnifiedExtraction where
  source : InsuranceSource
  document_date : String
  advisor_name : String
  pdf_filename : String
  insured_persons : List UnifiedInsured
  protections : List UnifiedProtection
  total_annual_premium : Option ℚ
  total_monthly_premium : Option ℚ
  payment_interval : Option String
deriving DecidableEq

/-- One output row of `unified_to_dataframe` (the fixed `UNIFIED_COLUMNS`
set; the totals are deliberately not fields of this record). -/
structure UnifiedRow where
  insurer_name : String
  report_date : String
  advisor_name : String
  pdf_filename : String
  insured_number : String
  last_name : String
  first_name : String
  insured_name : String
  sex : String
  birth_date : Option String
  age : Int
  smoker : Bool
  product_name : String
  coverage_amount : Option ℚ
  policy_premium : Option ℚ
  monthly_premium : Option ℚ
  payment_duration : Option String
  details : Option String
deriving DecidableEq

/-- The row dictionary built in the inner loop of `unified_to_dataframe`. -/
def mkRow (e : UnifiedExtraction) (i : UnifiedInsured) (p : UnifiedProtection) :
    UnifiedRow :=
  { insurer_name := e.source.value
    report_date := e.document_date
    advisor_name := e.advisor_name
    pdf_filename := e.pdf_filename
    insured_number := i.insured_number
    last_name := i.last_name
    first_name := i.first_name
    insured_name := i.insured_name
    sex := i.sex
    birth_date := i.birth_date
    age := i.age
    smoker := i.smoker
    product_name := p.product_name
    coverage_amount := p.coverage_amount
    policy_premium := p.policy_premium
    monthly_premium := p.monthly_premium
    payment_duration := p.payment_duration
    details := p.details }

/-- A produced DataFrame: the row list plus the document-level metadata the
code stores in `DataFrame.attrs`. -/
structure UnifiedDF where
  rows : List UnifiedRow
  attr_total_annual_premium : Option ℚ
  attr_total_monthly_premium : Option ℚ
  attr_payment_interval : Option String
  attr_source : String
  attr_pdf_filename : String
  attr_insured_persons : List UnifiedInsured
deriving DecidableEq

/-- Embedding of `unified_to_dataframe`: one row per insured person per
protection (outer loop over insured persons, inner loop over protections),
totals attached as attrs. -/
def unified_to_dataframe (e : UnifiedExtraction) : UnifiedDF :=
  { rows := (e.insured_persons.map (fun i => e.protections.map (mkRow e i))).flatten
    attr_total_annual_premium := e.total_annual_premium
    attr_total_monthly_premium := e.total_monthly_premium
    attr_payment_interval := e.payment_interval
    attr_source := e.source.value
    attr_pdf_filename := e.pdf_filename
    attr_insured_persons := e.insured_persons }

/-- Result of the batch driver `process_directory`: the success/failure
tally and the collected per-document DataFrames. -/
structure BatchResult where
  success_count : Nat
  fail_count : Nat
  all_dfs : List UnifiedDF
deriving DecidableEq

/-- One iteration of the `process_directory` loop over a per-document
extraction outcome (`None` models a document whose extraction failed, e.g.
for a missing anchor page; `extract_and_unify` returns `None` there instead
of raising).  The driver counts a file as a success only when its DataFrame
exists and is non-empty. -/
def processStep (acc : BatchResult) (o : Option UnifiedExtraction) :
    BatchResult :=
  match o.map unified_to_dataframe with
  | some df =>
    if df.rows ≠ [] then
      ⟨acc.success_count + 1, acc.fail_count, acc.all_dfs ++ [df]⟩
    else ⟨acc.success_count, acc.fail_count + 1, acc.all_dfs⟩
  | none => ⟨acc.success_count, acc.fail_count + 1, acc.all_dfs⟩

/-- Embedding of the `process_directory` loop, over the list of
per-document extraction outcomes. -/
def process_directory (outcomes : List (Option UnifiedExtraction)) :
    BatchResult :=
  outcomes.foldl processStep ⟨0, 0, []⟩

/-- The `pd.concat(all_dfs)` row list of a batch result. -/
def combinedRows (b : BatchResult) : List UnifiedRow :=
  (b.all_dfs.map UnifiedDF.rows).flatten

end PDFSpec.Unify

namespace PDFSpec.Spec

/-! ## Definitions written from the specification's words

These are the comparison side of the refinement-style claims: they restate
what the spec's sentences say, to be measured against the embeddings
above. -/

/-- Spec reading of amount classification: after stripping spaces and
currency markers, the string is non-empty and parses as a number once a
comma is normalized to a decimal point. -/
def specNumericAmount (value : String) : Bool :=
  let stripped := replaceChar ',' '.' (removeChar '$' (removeChar ' ' value.data))
  (!stripped.isEmpty) && pyFloatAccepts (String.mk stripped)

/-- Spec reading of the date shape of C5: a string consisting of an optional
leading French weekday name, then a day number, a French month name, and a
year — case-insensitive, commas removed, and nothing else. -/
def specDateShapeStrict (s : String) : Bool :=
  let toks := pySplitWs (removeChar ',' (pyLower s.data))
  let toks2 :=
    match toks with
    | w :: rest =>
      if Unify.FRENCH_DAYS.any (fun d => d.data = w) then rest else toks
    | [] => toks
  match toks2 with
  | [d, m, y] =>
    pyIsDigit d && d.length ≤ 2 &&
    (Unify.monthLookup (String.mk m)).isSome &&
    pyIsDigit y && y.length = 4
  | _ => false

/-- The date shape the code actually accepts (the amended C5 condition):
after the parser's cleaning pipeline the token stream starts with a
Python-int day token, a known month name and a Python-int year token,
arbitrary tokens being allowed after the year. -/
def dateShapeLoose (s : String) : Bool :=
  if s = "" then false
  else
    match Unify.dateTokens s with
    | d :: m :: y :: _ =>
      (pyIntVal (String.mk d)).isSome &&
      (Unify.monthLookup (String.mk (pyLower m))).isSome &&
      (pyIntVal (String.mk y)).isSome
    | _ => false

end PDFSpec.Spec

namespace PDFSpec

/-! ## Helper lemmas -/

theorem dropWhile_head?_not {α : Type} (p : α → Bool) (l : List α) (c : α)
    (h : (l.dropWhile p).head? = some c) : p c = false := by
  induction l with
  | nil => simp [List.dropWhile] at h
  | cons a t ih =>
    rw [List.dropWhile_cons] at h
    by_cases hp : p a
    · rw [if_pos hp] at h; exact ih h
    · rw [if_neg hp] at h
      simp only [List.head?_cons, Option.some.injEq] at h
      subst h
      exact Bool.not_eq_true _ |>.mp hp

theorem pyStripL_idem (cs : List Char) : pyStripL (pyStripL cs) = pyStripL cs := by
  show List.rdropWhile isPyWs (List.dropWhile isPyWs
        (List.rdropWhile isPyWs (List.dropWhile isPyWs cs))) = _
  have h1 : List.dropWhile isPyWs
      (List.rdropWhile isPyWs (List.dropWhile isPyWs cs)) =
      List.rdropWhile isPyWs (List.dropWhile isPyWs cs) := by
    cases hB : List.rdropWhile isPyWs (List.dropWhile isPyWs cs) with
    | nil => simp
    | cons b bs =>
      obtain ⟨t, ht⟩ := @List.rdropWhile_prefix Char isPyWs
        (List.dropWhile isPyWs cs)
      rw [hB] at ht
      have hhead : (List.dropWhile isPyWs cs).head? = some b := by
        rw [← ht]; rfl
      have hb := dropWhile_head?_not isPyWs cs b hhead
      simp [List.dropWhile_cons, hb]
  rw [h1]
  exact List.rdropWhile_idempotent isPyWs (List.dropWhile isPyWs cs)

theorem pyFloatAccepts_strip (s : String) :
    pyFloatAccepts (String.mk (pyStripL s.data)) = pyFloatAccepts s := by
  show pyFloatAccepts ⟨pyStripL s.data⟩ = pyFloatAccepts s
  unfold pyFloatAccepts
  rw [show (String.mk (pyStripL s.data)).data = pyStripL s.data from rfl,
      pyStripL_idem]

theorem pyFloatAccepts_of_strip_nil {s : String} (h : pyStripL s.data = []) :
    pyFloatAccepts s = false := by
  unfold pyFloatAccepts
  rw [h]
  rfl

/-! ## Claim C10 -/

/-- All words held by a bucket list, in bucket order. -/
def linesFlatten (ls : List (ℚ × List Word)) : List Word :=
  (ls.map Prod.snd).flatten

theorem insertWordAux_perm (tol yk : ℚ) (w : Word) (bs : List (ℚ × List Word)) :
    (linesFlatten (insertWordAux tol yk w bs)).Perm (linesFlatten bs ++ [w]) := by
  induction bs with
  | nil => simp [insertWordAux, linesFlatten]
  | cons b rest ih =>
    obtain ⟨k, ws⟩ := b
    by_cases h : |k - yk| ≤ tol
    · simp only [insertWordAux, if_pos h, linesFlatten, List.map_cons,
        List.flatten_cons, List.append_assoc]
      exact List.Perm.append_left ws (List.perm_append_comm)
    · simp only [insertWordAux, if_neg h, linesFlatten, List.map_cons,
        List.flatten_cons, List.append_assoc]
      exact List.Perm.append_left ws ih

theorem group_foldl_perm (words : List Word) (tol : ℚ)
    (bs : List (ℚ × List Word)) :
    (linesFlatten (words.foldl
        (fun lines w => insertWordAux tol (pyRound w.top) w lines) bs)).Perm
      (linesFlatten bs ++ words) := by
  induction words generalizing bs with
  | nil => simp
  | cons w t ih =>
    simp only [List.foldl_cons]
    refine (ih _).trans ?_
    have h1 := (insertWordAux_perm tol (pyRound w.top) w bs).append_right t
    refine h1.trans ?_
    simp [List.append_assoc]

/-- Claim C10: line reconstruction partitions its input.  Every word is
placed in exactly one bucket — the first existing bucket whose key is within
tolerance 3 of the word's rounded top Y, else a fresh bucket keyed by that
rounded value — so the concatenation of all buckets is a permutation of the
input word list: no word is dropped or duplicated.  (`group_words_by_line`
is a function of the word list, so the result is deterministic for a fixed
word order.) -/
theorem claim_C10 (words : List Word) :
    (linesFlatten (group_words_by_line words 3)).Perm words := by
  have h := group_foldl_perm words 3 []
  simpa [group_words_by_line, linesFlatten] using h

/-! ## Claim C1 -/

/-- Claim C1: for every document, `unified_to_dataframe` produces exactly
`|insured persons| * |protections|` rows (one per pair), and the totals
(total annual premium, total monthly premium, payment interval) are attached
as document-level attrs metadata, not as per-row fields (the `UnifiedRow`
record has no totals fields). -/
theorem claim_C1 (e : Unify.UnifiedExtraction) :
    (Unify.unified_to_dataframe e).rows.length =
      e.insured_persons.length * e.protections.length ∧
    (Unify.unified_to_dataframe e).attr_total_annual_premium =
      e.total_annual_premium ∧
    (Unify.unified_to_dataframe e).attr_total_monthly_premium =
      e.total_monthly_premium ∧
    (Unify.unified_to_dataframe e).attr_payment_interval =
      e.payment_interval := by
  refine ⟨?_, rfl, rfl, rfl⟩
  show ((e.insured_persons.map
      (fun i => e.protections.map (Unify.mkRow e i))).flatten).length = _
  generalize e.insured_persons = is
  induction is with
  | nil => simp
  | cons a t ih =>
    simp only [List.map_cons, List.flatten_cons, List.length_append,
      List.length_map, ih, List.length_cons]
    ring

/-! ## Claim C9 -/

/-- Claim C9: currency parsing maps `"50 000 $"` to `50000`, `"556,50 $"` to
`556.50` and `"25 000,00 $"` to `25000`: spaces and the dollar sign are
stripped, a comma when present becomes the decimal separator, and the result
is the exact numeric value. -/
theorem claim_C9 :
    Unify.parse_currency "50 000 $" = some 50000 ∧
    Unify.parse_currency "556,50 $" = some (1113 / 2 : ℚ) ∧
    Unify.parse_currency "25 000,00 $" = some 25000 := by
  have h1 : Unify.parse_currency "50 000 $" =
      some (((50000 : Int) : ℚ) / ((1 : Nat) : ℚ)) := rfl
  have h2 : Unify.parse_currency "556,50 $" =
      some (((55650 : Int) : ℚ) / ((100 : Nat) : ℚ)) := rfl
  have h3 : Unify.parse_currency "25 000,00 $" =
      some (((2500000 : Int) : ℚ) / ((100 : Nat) : ℚ)) := rfl
  rw [h1, h2, h3]
  norm_num

end PDFSpec

namespace PDFSpec

/-! ## Claims C6 and C7 -/

/-- A sample insured person for concrete batch scenarios. -/
def sampleInsured : Unify.UnifiedInsured :=
  ⟨"1", "VAUDESCAL", "THOMAS", "Homme", 26, false, none⟩

/-- A document whose anchor page and insured person parsed but whose
retained coverage-item list is empty. -/
def emptyItemsDoc : Unify.UnifiedExtraction :=
  ⟨.UV, "2025-11-17", "Conseiller Test", "doc.pdf", [sampleInsured], [],
   none, none, none⟩

/-- Claim C6 counterexample: a successfully parsed document with one insured
person and zero retained coverage items yields an empty unified-record set,
and the batch driver counts it as a FAILURE (`df is not None and not
df.empty` is false), not as a success as the claim states. -/
theorem claim_C6_counterexample :
    (Unify.unified_to_dataframe emptyItemsDoc).rows = [] ∧
    Unify.process_directory [some emptyItemsDoc] = ⟨0, 1, []⟩ := by
  exact ⟨rfl, rfl⟩

/-- Claim C6 (amended): a document whose extraction succeeds with an empty
retained coverage-item list contributes an empty unified-record set, and the
batch driver tallies it as a failure (its DataFrame is empty), leaving the
collected result sets unchanged. -/
theorem claim_C6 (e : Unify.UnifiedExtraction) (h : e.protections = []) :
    (Unify.unified_to_dataframe e).rows = [] ∧
    ∀ acc : Unify.BatchResult,
      Unify.processStep acc (some e) =
        ⟨acc.success_count, acc.fail_count + 1, acc.all_dfs⟩ := by
  have hrows : (Unify.unified_to_dataframe e).rows = [] := by
    simp [Unify.unified_to_dataframe, h, List.flatten_eq_nil_iff]
  refine ⟨hrows, fun acc => ?_⟩
  simp [Unify.processStep, hrows]

/-- Claim C6 witness: the amended claim applied to the concrete
zero-item document. -/
theorem claim_C6_witness :
    (Unify.unified_to_dataframe emptyItemsDoc).rows = [] ∧
    Unify.processStep ⟨0, 0, []⟩ (some emptyItemsDoc) = ⟨0, 1, []⟩ := by
  have h := claim_C6 emptyItemsDoc rfl
  exact ⟨h.1, h.2 ⟨0, 0, []⟩⟩

theorem processStep_split (a : Unify.BatchResult)
    (o : Option Unify.UnifiedExtraction) :
    Unify.processStep a o =
      ⟨a.success_count + (Unify.processStep ⟨0, 0, []⟩ o).success_count,
       a.fail_count + (Unify.processStep ⟨0, 0, []⟩ o).fail_count,
       a.all_dfs ++ (Unify.processStep ⟨0, 0, []⟩ o).all_dfs⟩ := by
  cases o with
  | none => simp [Unify.processStep]
  | some e =>
    by_cases h : (Unify.unified_to_dataframe e).rows = []
    · simp [Unify.processStep, h]
    · simp [Unify.processStep, h]

theorem process_foldl_split (os : List (Option Unify.UnifiedExtraction))
    (a : Unify.BatchResult) :
    os.foldl Unify.processStep a =
      ⟨a.success_count + (Unify.process_directory os).success_count,
       a.fail_count + (Unify.process_directory os).fail_count,
       a.all_dfs ++ (Unify.process_directory os).all_dfs⟩ := by
  induction os generalizing a with
  | nil => simp [Unify.process_directory]
  | cons o t ih =>
    show (t.foldl Unify.processStep (Unify.processStep a o)) = _
    rw [ih (Unify.processStep a o)]
    have hdir : Unify.process_directory (o :: t) =
        t.foldl Unify.processStep (Unify.processStep ⟨0, 0, []⟩ o) := rfl
    rw [hdir, ih (Unify.processStep ⟨0, 0, []⟩ o), processStep_split a o]
    simp [Nat.add_assoc, List.append_assoc]

/-- Claim C7: batch processing is isolating.  For any batch, replacing the
document list by the same list with one failing document (an extraction that
returned `None`, e.g. for a missing anchor phrase) inserted anywhere leaves
the success count and every collected result set unchanged and increments
the failure count by one; in particular 3 documents of which 1 fails yield 2
successes, 1 failure, and the 2 result sets of the succeeding documents are
exactly those obtained without the failing document.  The driver is a total
function of the outcome list: a failing document never raises out of the
loop. -/
theorem claim_C7 (xs ys : List (Option Unify.UnifiedExtraction)) :
    (Unify.process_directory (xs ++ none :: ys)).success_count =
      (Unify.process_directory (xs ++ ys)).success_count ∧
    (Unify.process_directory (xs ++ none :: ys)).fail_count =
      (Unify.process_directory (xs ++ ys)).fail_count + 1 ∧
    (Unify.process_directory (xs ++ none :: ys)).all_dfs =
      (Unify.process_directory (xs ++ ys)).all_dfs := by
  have key : Unify.process_directory (xs ++ none :: ys) =
      ⟨(Unify.process_directory (xs ++ ys)).success_count,
       (Unify.process_directory (xs ++ ys)).fail_count + 1,
       (Unify.process_directory (xs ++ ys)).all_dfs⟩ := by
    have hl : Unify.process_directory (xs ++ none :: ys) =
        ys.foldl Unify.processStep
          (Unify.processStep (xs.foldl Unify.processStep ⟨0, 0, []⟩) none) := by
      show ((xs ++ none :: ys).foldl Unify.processStep ⟨0, 0, []⟩) = _
      rw [List.foldl_append, List.foldl_cons]
    have hr : Unify.process_directory (xs ++ ys) =
        ys.foldl Unify.processStep (xs.foldl Unify.processStep ⟨0, 0, []⟩) := by
      show ((xs ++ ys).foldl Unify.processStep ⟨0, 0, []⟩) = _
      rw [List.foldl_append]
    have hn : Unify.processStep (xs.foldl Unify.processStep ⟨0, 0, []⟩) none =
        ⟨(xs.foldl Unify.processStep ⟨0, 0, []⟩).success_count,
         (xs.foldl Unify.processStep ⟨0, 0, []⟩).fail_count + 1,
         (xs.foldl Unify.processStep ⟨0, 0, []⟩).all_dfs⟩ := by
      simp [Unify.processStep]
    rw [hl, hn, hr, process_foldl_split ys, process_foldl_split ys]
    simp only [Unify.BatchResult.mk.injEq]
    exact ⟨trivial, by omega, trivial⟩
  rw [key]
  exact ⟨rfl, rfl, rfl⟩

end PDFSpec

namespace PDFSpec

/-! ## Claim C8 -/

theorem joinSpace_nil : joinSpace [] = "" := rfl

theorem joinSpace_single (t : String) : joinSpace [t] = t := rfl

theorem assignWord_of_not_mem (bounds : List (String × ℚ × ℚ)) (x : ℚ)
    (h : ∀ b ∈ bounds, ¬ (b.2.1 ≤ x ∧ x < b.2.2)) :
    assignWord bounds x = none := by
  induction bounds with
  | nil => rfl
  | cons b rest ih =>
    obtain ⟨col, lo, hi⟩ := b
    simp only [assignWord]
    rw [if_neg (h _ (List.mem_cons_self _ _))]
    exact ih (fun b hb => h b (List.mem_cons_of_mem _ hb))

theorem row_of_unmatched (bounds : List (String × ℚ × ℚ)) (t : String)
    (x y : ℚ) (h : assignWord bounds x = none) :
    extract_row_by_columns bounds [⟨t, x, y⟩] =
      bounds.map (fun b => (b.1, "")) := by
  unfold extract_row_by_columns
  simp only [List.foldl_cons, List.foldl_nil, h, List.map_map]
  rfl

/-- Claim C8: column classification uses half-open ranges with a first-match
rule, for both variants' column tables.  A synthetic word placed exactly on
a column's lower bound lands in that column; a word on an interior upper
bound lands in the next column; and a word whose X lies in no declared range
contributes to no column. -/
theorem claim_C8 :
    (∀ (t : String) (y : ℚ),
      extract_row_by_columns UV.COLUMN_BOUNDARIES [⟨t, 0, y⟩] =
        [("description", t), ("insurance_amount", ""),
         ("annual_premium", ""), ("monthly_premium", "")] ∧
      extract_row_by_columns UV.COLUMN_BOUNDARIES [⟨t, 280, y⟩] =
        [("description", ""), ("insurance_amount", t),
         ("annual_premium", ""), ("monthly_premium", "")] ∧
      extract_row_by_columns UV.COLUMN_BOUNDARIES [⟨t, 400, y⟩] =
        [("description", ""), ("insurance_amount", ""),
         ("annual_premium", t), ("monthly_premium", "")] ∧
      extract_row_by_columns UV.COLUMN_BOUNDARIES [⟨t, 510, y⟩] =
        [("description", ""), ("insurance_amount", ""),
         ("annual_premium", ""), ("monthly_premium", t)]) ∧
    (∀ (t : String) (y : ℚ),
      extract_row_by_columns Assomption.COLUMN_BOUNDARIES [⟨t, 0, y⟩] =
        [("description", t), ("capital_assure", ""),
         ("duree_paiement", ""), ("prime_annuelle", "")] ∧
      extract_row_by_columns Assomption.COLUMN_BOUNDARIES [⟨t, 350, y⟩] =
        [("description", ""), ("capital_assure", t),
         ("duree_paiement", ""), ("prime_annuelle", "")] ∧
      extract_row_by_columns Assomption.COLUMN_BOUNDARIES [⟨t, 420, y⟩] =
        [("description", ""), ("capital_assure", ""),
         ("duree_paiement", t), ("prime_annuelle", "")] ∧
      extract_row_by_columns Assomption.COLUMN_BOUNDARIES [⟨t, 520, y⟩] =
        [("description", ""), ("capital_assure", ""),
         ("duree_paiement", ""), ("prime_annuelle", t)]) ∧
    (∀ x : ℚ, (∀ b ∈ UV.COLUMN_BOUNDARIES, ¬ (b.2.1 ≤ x ∧ x < b.2.2)) →
      ∀ (t : String) (y : ℚ),
        extract_row_by_columns UV.COLUMN_BOUNDARIES [⟨t, x, y⟩] =
          UV.COLUMN_BOUNDARIES.map (fun b => (b.1, ""))) ∧
    (∀ x : ℚ, (∀ b ∈ Assomption.COLUMN_BOUNDARIES, ¬ (b.2.1 ≤ x ∧ x < b.2.2)) →
      ∀ (t : String) (y : ℚ),
        extract_row_by_columns Assomption.COLUMN_BOUNDARIES [⟨t, x, y⟩] =
          Assomption.COLUMN_BOUNDARIES.map (fun b => (b.1, ""))) := by
  refine ⟨fun t y => ⟨?_, ?_, ?_, ?_⟩, fun t y => ⟨?_, ?_, ?_, ?_⟩,
          fun x h t y => row_of_unmatched _ t x y (assignWord_of_not_mem _ x h),
          fun x h t y => row_of_unmatched _ t x y (assignWord_of_not_mem _ x h)⟩ <;>
    norm_num [extract_row_by_columns, assignWord, UV.COLUMN_BOUNDARIES,
      Assomption.COLUMN_BOUNDARIES, addToCol, joinSpace] <;>
    (repeat' apply And.intro) <;> rfl

/-- Claim C8 witness: a word at X = 700 lies in no UV column range and
contributes to no column. -/
theorem claim_C8_witness :
    extract_row_by_columns UV.COLUMN_BOUNDARIES [⟨"w", 700, 0⟩] =
      [("description", ""), ("insurance_amount", ""),
       ("annual_premium", ""), ("monthly_premium", "")] :=
  (claim_C8.2.2.1 700 (by decide) "w" 0).trans rfl

end PDFSpec

namespace PDFSpec

/-! ## Claim C2 -/

theorem uv_numeric_eq_spec (value : String) :
    UV.is_numeric_amount value = Spec.specNumericAmount value := by
  by_cases hv : value = ""
  · subst hv; rfl
  · have h1 : UV.is_numeric_amount value =
        (if String.mk (pyStripL (replaceChar ',' '.'
            (removeChar '$' (removeChar ' ' value.data)))) = "" then false
         else pyFloatAccepts (String.mk (pyStripL (replaceChar ',' '.'
            (removeChar '$' (removeChar ' ' value.data)))))) := by
      unfold UV.is_numeric_amount
      rw [if_neg hv]
      rfl
    have h2 : Spec.specNumericAmount value =
        ((!(replaceChar ',' '.'
            (removeChar '$' (removeChar ' ' value.data))).isEmpty) &&
         pyFloatAccepts (String.mk (replaceChar ',' '.'
            (removeChar '$' (removeChar ' ' value.data))))) := rfl
    rw [h1, h2]
    set P := replaceChar ',' '.' (removeChar '$' (removeChar ' ' value.data))
    by_cases hs : pyStripL P = []
    · rw [hs]
      have hf : pyFloatAccepts (String.mk P) = false :=
        @pyFloatAccepts_of_strip_nil ⟨P⟩ hs
      simp [hf]
    · have hne : String.mk (pyStripL P) ≠ "" :=
        fun h => hs (congrArg String.data h)
      rw [if_neg hne]
      have hPne : P ≠ [] := by
        intro h
        apply hs
        rw [h]
        rfl
      have hbe : (!P.isEmpty) = true := by
        cases hp : P with
        | nil => exact absurd hp hPne
        | cons a t => rfl
      rw [hbe, Bool.true_and]
      exact pyFloatAccepts_strip ⟨P⟩

/-- Claim C2 counterexample: the claim's criterion — after stripping spaces
and currency markers the string is non-empty and parses as a number with the
comma as decimal separator — classifies `"1000"` as numeric, but the
Assomption variant's `is_numeric_amount` returns false on it (that variant
requires a `$` sign); the two variants also disagree with each other
there. -/
theorem claim_C2_counterexample :
    Spec.specNumericAmount "1000" = true ∧
    Assomption.is_numeric_amount "1000" = false ∧
    UV.is_numeric_amount "1000" = true :=
  ⟨rfl, rfl, rfl⟩

/-- Claim C2 (amended): the UV variant's `is_numeric_amount` satisfies the
claimed criterion exactly — true iff after stripping spaces and `$` and
normalizing a comma to a decimal point the string is non-empty and parses as
a Python float; the Assomption variant instead returns true iff the string
contains `$` and at least one digit.  Both variants classify the claim's
listed examples as stated: `"50 000 $"` and `"1000$"` numeric;
`"Voir la description"`, `"Incluse"` and the empty string non-numeric. -/
theorem claim_C2 :
    (∀ value : String,
      UV.is_numeric_amount value = Spec.specNumericAmount value) ∧
    (∀ value : String,
      Assomption.is_numeric_amount value =
        (strContains value "$" && value.data.any Char.isDigit)) ∧
    (UV.is_numeric_amount "50 000 $" = true ∧
     UV.is_numeric_amount "1000$" = true ∧
     UV.is_numeric_amount "Voir la description" = false ∧
     UV.is_numeric_amount "Incluse" = false ∧
     UV.is_numeric_amount "" = false) ∧
    (Assomption.is_numeric_amount "50 000 $" = true ∧
     Assomption.is_numeric_amount "1000$" = true ∧
     Assomption.is_numeric_amount "Voir la description" = false ∧
     Assomption.is_numeric_amount "Incluse" = false ∧
     Assomption.is_numeric_amount "" = false) := by
  refine ⟨uv_numeric_eq_spec, ?_, ⟨rfl, rfl, rfl, rfl, rfl⟩,
          ⟨rfl, rfl, rfl, rfl, rfl⟩⟩
  intro value
  by_cases hv : value = ""
  · subst hv; rfl
  · unfold Assomption.is_numeric_amount
    rw [if_neg hv]

end PDFSpec

namespace PDFSpec

/-! ## Claim C5 -/

/-- Claim C5 counterexample: `"17 novembre 2025 14h00"` does not consist of
an optional weekday plus day, month name and year — it has a trailing token —
yet the normalized document date handed downstream is `"2025-11-17"`, not
the original string unchanged as the claim requires for every string not
matching the shape. -/
theorem claim_C5_counterexample :
    Spec.specDateShapeStrict "17 novembre 2025 14h00" = false ∧
    Unify.convert_document_date "17 novembre 2025 14h00" = "2025-11-17" ∧
    ("2025-11-17" : String) ≠ "17 novembre 2025 14h00" :=
  ⟨rfl, rfl, by decide⟩

/-- Claim C5 (amended): date normalization maps the claim's examples to ISO
form; a string is normalized exactly when — after lowercasing, stripping, a
leading-weekday strip, comma removal and whitespace splitting — its first
three tokens are a Python-int day, a known French month name and a
Python-int year, trailing tokens being permitted; every string that does not
match this is passed downstream unchanged, never an error. -/
theorem claim_C5 :
    Unify.convert_document_date "lundi 17 novembre 2025" = "2025-11-17" ∧
    Unify.convert_document_date "17 novembre, 2025" = "2025-11-17" ∧
    (∀ s : String, Spec.dateShapeLoose s = false →
      Unify.convert_document_date s = s) ∧
    (∀ (s : String) (d m y : List Char) (rest : List (List Char))
       (dv : Int) (mv : Nat) (yv : Int),
      s ≠ "" → Unify.dateTokens s = d :: m :: y :: rest →
      pyIntVal (String.mk d) = some dv →
      Unify.monthLookup (String.mk (pyLower m)) = some mv →
      pyIntVal (String.mk y) = some yv →
      Unify.convert_document_date s =
        pyFormat0d 4 yv ++ "-" ++ pyFormat0d 2 (mv : Int) ++ "-" ++
          pyFormat0d 2 dv) := by
  refine ⟨rfl, rfl, ?_, ?_⟩
  · intro s h
    by_cases hs : s = ""
    · subst hs; rfl
    · unfold Unify.convert_document_date Unify.parse_french_date
      rw [if_neg hs]
      simp only [Spec.dateShapeLoose, if_neg hs] at h
      cases ht : Unify.dateTokens s with
      | nil => rfl
      | cons d t1 =>
        cases t1 with
        | nil => rfl
        | cons m t2 =>
          cases t2 with
          | nil => rfl
          | cons y rest =>
            rw [ht] at h
            cases hd : pyIntVal (String.mk d) with
            | none => simp [hd]
            | some dv =>
              cases hm : Unify.monthLookup (String.mk (pyLower m)) with
              | none => simp [hd, hm]
              | some mv =>
                cases hy : pyIntVal (String.mk y) with
                | none => simp [hd, hm, hy]
                | some yv => simp [hd, hm, hy] at h
  · intro s d m y rest dv mv yv hs ht hd hm hy
    unfold Unify.convert_document_date Unify.parse_french_date
    rw [if_neg hs, ht]
    simp only [hd, hm, hy]
    have hne : pyFormat0d 4 yv ++ "-" ++ pyFormat0d 2 (mv : Int) ++ "-" ++
        pyFormat0d 2 dv ≠ "" := by
      intro h
      have hl := congrArg String.length h
      rw [String.length_append, String.length_append, String.length_append,
          String.length_append] at hl
      have h1 : ("-" : String).length = 1 := rfl
      have h0 : ("" : String).length = 0 := rfl
      omega
    rw [if_neg hne]

/-- Claim C5 witness: an unrecognized date string passes through
unchanged. -/
theorem claim_C5_witness :
    Unify.convert_document_date "Bonjour" = "Bonjour" :=
  claim_C5.2.2.1 "Bonjour" rfl

end PDFSpec

namespace PDFSpec

/-! ## Claims C3 and C4 -/

theorem uv_normalize_empty : UV.normalize_amount "" = "" := rfl

theorem uv_numeric_empty : UV.is_numeric_amount "" = false := rfl

theorem pyStrip_empty : pyStrip "" = "" := rfl

/-- Claim C3 (amended, UV side): in the UV parser, a line whose description
column is non-empty, which is not a totals/skip/detail line, whose amount
columns are both empty — hence carries no numeric amount — and which arrives
while a current item exists, has its description appended (space-joined) to
the current item's product name; no new item is created and nothing else in
the state changes. -/
theorem claim_C3 (s : UV.State) (ws : List Word) (p : UV.ProtectionInfo)
    (row : List (String × String))
    (hrow : extract_row_by_columns UV.COLUMN_BOUNDARIES (sortByX ws) = row)
    (hins : s.insured ≠ none)
    (hcur : s.current = some p)
    (hnt : strContains (rowGet row "description") "Prime totale" = false)
    (hdesc : pyStrip (rowGet row "description") ≠ "")
    (hai : pyStrip (rowGet row "description") ≠ "Assurance individuelle")
    (hsom : strContains (pyStrip (rowGet row "description")) "SOMMAIRE" = false)
    (hpar : startsWithB "(".data (pyStrip (rowGet row "description")).data = false)
    (hamt : rowGet row "insurance_amount" = "")
    (hann : rowGet row "annual_premium" = "") :
    UV.step s ws =
      { s with current := some { p with protection_name :=
          p.protection_name ++ " " ++ pyStrip (rowGet row "description") } } := by
  simp only [UV.step, hrow, hamt, hann]
  rw [if_neg (fun h => hins h.1)]
  simp [hnt, hdesc, hai, hsom, hpar, hcur, uv_normalize_empty,
    uv_numeric_empty, pyStrip_empty]

/-- Insured person used by the concrete UV scenarios. -/
def uvInsuredSample : UV.InsuredInfo :=
  ⟨"VAUDESCAL", "THOMAS JEAN", "Homme", "1999-11-30", 26, false⟩

/-- Current item used by the concrete UV scenarios. -/
def uvProtSample : UV.ProtectionInfo :=
  ⟨"Avenant Assurance dette", "50 000 $", "556,50 $", "50,09 $", ""⟩

/-- A mid-table UV state with one current item. -/
def uvContState : UV.State :=
  ⟨some uvInsuredSample, [], some uvProtSample, "", "", false⟩

/-- A continuation line: non-empty description, all amount columns empty. -/
def uvContLine : List Word := [⟨"familiale", 10, 200⟩]

/-- A UV totals line: description column holds `Prime totale`, premium
columns hold the totals. -/
def uvTotLine : List Word :=
  [⟨"Prime", 10, 300⟩, ⟨"totale", 60, 300⟩, ⟨"556,50", 420, 300⟩,
   ⟨"50,09", 520, 300⟩]

/-- Claim C3 witness: the UV continuation rule applied to a concrete
two-line item, yielding one item with the concatenated name. -/
theorem claim_C3_witness :
    UV.step uvContState uvContLine =
      { uvContState with current := some { uvProtSample with
          protection_name := "Avenant Assurance dette familiale" } } := by
  have h := claim_C3 uvContState uvContLine uvProtSample
    (extract_row_by_columns UV.COLUMN_BOUNDARIES (sortByX uvContLine)) rfl
    (by decide) rfl (by decide) (by decide) (by decide) (by decide)
    (by decide) (by decide) (by decide)
  exact h.trans (by rfl)

/-- First Assomption scenario line: the `Police …` anchor entering the
table. -/
def assLine1 : List Word := [⟨"Police", 10, 50⟩, ⟨"Vie", 60, 50⟩]

/-- Second Assomption scenario line: an item line with a numeric capital. -/
def assLine2 : List Word :=
  [⟨"Avenant", 10, 80⟩, ⟨"dette", 80, 80⟩, ⟨"25", 355, 80⟩, ⟨"$", 370, 80⟩]

/-- Third Assomption scenario line: a continuation line — non-empty
description, no amounts. -/
def assLine3 : List Word := [⟨"suite", 10, 110⟩]

/-- An Assomption totals line. -/
def assLine4 : List Word :=
  [⟨"Prime", 10, 140⟩, ⟨"annuelle", 60, 140⟩, ⟨"totale", 130, 140⟩,
   ⟨"100", 530, 140⟩, ⟨"$", 560, 140⟩]

/-- A second Assomption item line, appearing after the totals line. -/
def assLine5 : List Word :=
  [⟨"GarB", 10, 170⟩, ⟨"40", 360, 170⟩, ⟨"$", 370, 170⟩]

/-- Claim C3 counterexample: in the Assomption parser a two-line item
(`Avenant dette` with a numeric capital, followed by a continuation line
`suite` with non-empty description and no amounts) yields one item whose
name is only the first line's text — the continuation line is silently
dropped, not appended as the claim states for both variants. -/
theorem claim_C3_counterexample :
    (Assomption.processLines [assLine1, assLine2, assLine3]
        Assomption.initState).guarantees =
      [⟨"Avenant dette", "25 $", "", ""⟩] := rfl

/-- Claim C4 (amended, UV side): in the UV parser, once a line whose
description column contains the total-premium phrase `Prime totale` is
encountered (with the insured already parsed), its payload is read from the
annual/monthly premium columns, the loop's `extraction_complete` flag
becomes true, and from any completed state the line loop ignores all
remaining lines, emitting nothing. -/
theorem claim_C4 :
    (∀ (s : UV.State) (lines : List (List Word)),
      s.complete = true → UV.processLines lines s = s) ∧
    (∀ (s : UV.State) (ws : List Word) (row : List (String × String)),
      extract_row_by_columns UV.COLUMN_BOUNDARIES (sortByX ws) = row →
      s.insured ≠ none →
      strContains (rowGet row "description") "Prime totale" = true →
      UV.step s ws =
        { s with
            total_annual_premium := pyStrip (rowGet row "annual_premium"),
            total_monthly_premium := pyStrip (rowGet row "monthly_premium"),
            complete := true }) := by
  constructor
  · intro s lines h
    cases lines with
    | nil => rfl
    | cons l rest => simp [UV.processLines, h]
  · intro s ws row hrow hins hnt
    simp only [UV.step, hrow]
    rw [if_neg (fun h => hins h.1), if_pos hnt]

/-- Claim C4 witness: the UV totals transition on a concrete totals line,
and the loop discarding a further line from the completed state. -/
theorem claim_C4_witness :
    UV.step uvContState uvTotLine =
      { uvContState with
          total_annual_premium := "556,50",
          total_monthly_premium := "50,09",
          complete := true } ∧
    UV.processLines [uvContLine] (UV.step uvContState uvTotLine) =
      UV.step uvContState uvTotLine := by
  have h2 := claim_C4.2 uvContState uvTotLine
    (extract_row_by_columns UV.COLUMN_BOUNDARIES (sortByX uvTotLine)) rfl
    (by decide) (by decide)
  refine ⟨h2.trans (by rfl), claim_C4.1 _ [uvContLine] ?_⟩
  rw [h2]

/-- Claim C4 counterexample: in the Assomption parser a totals line
(`Prime annuelle totale 100 $`) has its payload extracted, but the machine
does not reach a terminal state: a later item line still emits a new
CoverageItem (the guarantee count grows from 1 to 2 after the totals
line). -/
theorem claim_C4_counterexample :
    (Assomption.processLines [assLine1, assLine2, assLine4]
        Assomption.initState).total_annual_premium = "100 $" ∧
    (Assomption.processLines [assLine1, assLine2, assLine4]
        Assomption.initState).guarantees.length = 1 ∧
    (Assomption.processLines [assLine1, assLine2, assLine4, assLine5]
        Assomption.initState).guarantees.length = 2 :=
  ⟨rfl, rfl, rfl⟩

end PDFSpec
